import Mathlib

/-!
Shallow embedding of `src/src/lib/utils/HydrogenNucleusHelper.ts`.

The source manipulates `ethers.BigNumber` values (arbitrary-precision
integers; all inputs relevant to the claims are non-negative) and hex
strings.  We model:
  * BigNumber values as `Nat`;
  * a 32-byte location hex string `"0x…"` as its byte sequence
    `List Nat` (two hex characters per byte, the `"0x"` prefix dropped);
    the source's string-length test `loc.length != 66` becomes a
    byte-length test `≠ 32`, and `substring` comparisons become tests on
    byte prefixes;
  * `BigNumber.div`, which throws on division by zero, as
    `bnDiv : Nat → Nat → Option Nat`; a thrown exception propagates as
    `none`;
  * `ethers.utils.getAddress`, which re-encodes 20 address bytes in
    checksummed form for display, by the 20 address bytes themselves
    (the checksummed string is an injective re-encoding of those bytes).

`MAX_PPM.sub(feePPM)` in `calculateMarketOrderExactAMT` is modelled with
truncated `Nat` subtraction; this coincides with the source for
`feePPM ≤ 1_000_000` (the range of every claim): for `feePPM < 1_000_000`
the difference is positive, and at `feePPM = 1_000_000` both the source
(BigNumber division-by-zero fault) and the model (`bnDiv _ 0 = none`)
fail.
-/

/-- 2^128 - 1, the `MaxUint128` constant of the source. -/
def MaxUint128 : Nat := 2 ^ 128 - 1

/-- 1_000_000, the `MAX_PPM` (parts-per-million) constant of the source. -/
def MAX_PPM : Nat := 1000000

/-- `BigNumber.div`: floor division, throwing on a zero divisor
(the throw is modelled as `none`). -/
def bnDiv (a b : Nat) : Option Nat := if b = 0 then none else some (a / b)

/-- `encodeExchangeRate(x1, x2)`: throws when `x1` or `x2` exceeds
`MaxUint128`, otherwise returns the 256-bit value `x1 << 128 | x2`
(the source renders it as a bytes32 hex string; we keep the value). -/
def encodeExchangeRate (x1 x2 : Nat) : Option Nat :=
  if x1 > MaxUint128 ∨ x2 > MaxUint128 then none
  else some (x1 * 2 ^ 128 + x2)

/-- `decodeExchangeRate(er)`: `x1 = er >> 128`, `x2 = er & MaxUint128`. -/
def decodeExchangeRate (er : Nat) : Nat × Nat :=
  (er / 2 ^ 128, er % 2 ^ 128)

/-- `calculateAmountA(amountB, exchangeRate)`: throws when either decoded
component is zero, else `floor(amountB * x1 / x2)`. -/
def calculateAmountA (amountB : Nat) (exchangeRate : Nat) : Option Nat :=
  let x := decodeExchangeRate exchangeRate
  if x.1 = 0 ∨ x.2 = 0 then none
  else bnDiv (amountB * x.1) x.2

/-- `calculateAmountB(amountA, exchangeRate)`: throws when either decoded
component is zero, else `floor(amountA * x2 / x1)`, incremented by 1 when
the division's remainder is non-zero. -/
def calculateAmountB (amountA : Nat) (exchangeRate : Nat) : Option Nat :=
  let x := decodeExchangeRate exchangeRate
  if x.1 = 0 ∨ x.2 = 0 then none
  else
    let numerator := amountA * x.2
    (bnDiv numerator x.1).map (fun q => if 0 < numerator % x.1 then q + 1 else q)

/-- `calculateMarketOrderExactAMT(amountAMT, exchangeRate, feePPM)`:
`amountAMM = amountAMT`; `amountBMM = calculateAmountB(amountAMM, rate)`;
`amountBMT = amountBMM * MAX_PPM / (MAX_PPM - feePPM)`;
`amountBFR = amountBMT * feePPM / MAX_PPM` (all `BigNumber.div`, floor).
Result tuple `(amountAMM, amountBMM, amountBMT, amountBFR)`. -/
def calculateMarketOrderExactAMT (amountAMT : Nat) (exchangeRate : Nat) (feePPM : Nat) :
    Option (Nat × Nat × Nat × Nat) :=
  let amountAMM := amountAMT
  match calculateAmountB amountAMM exchangeRate with
  | none => none
  | some amountBMM =>
    match bnDiv (amountBMM * MAX_PPM) (MAX_PPM - feePPM) with
    | none => none
    | some amountBMT =>
      match bnDiv (amountBMT * feePPM) MAX_PPM with
      | none => none
      | some amountBFR => some (amountAMM, amountBMM, amountBMT, amountBFR)

/-- `calculateMarketOrderExactBMT(amountBMT, exchangeRate, feePPM)`:
`amountBFR = amountBMT * feePPM / MAX_PPM`; `amountBMM = amountBMT - amountBFR`;
`amountAMM = calculateAmountA(amountBMM, rate)`; `amountAMT = amountAMM`.
Result tuple `(amountAMM, amountAMT, amountBMM, amountBFR)`.
`amountBMT.sub(amountBFR)` is non-negative whenever `feePPM ≤ MAX_PPM`,
so `Nat` subtraction coincides with BigNumber subtraction there. -/
def calculateMarketOrderExactBMT (amountBMT : Nat) (exchangeRate : Nat) (feePPM : Nat) :
    Option (Nat × Nat × Nat × Nat) :=
  match bnDiv (amountBMT * feePPM) MAX_PPM with
  | none => none
  | some amountBFR =>
    let amountBMM := amountBMT - amountBFR
    match calculateAmountA amountBMM exchangeRate with
    | none => none
    | some amountAMM =>
      let amountAMT := amountAMM
      some (amountAMM, amountAMT, amountBMM, amountBFR)

/-- The `AddressZero` constant of ethers. -/
def AddressZero : String := "0x0000000000000000000000000000000000000000"

/-- `getSwapFeeForPair(nucleusState, tokenA, tokenB)`.  The fee table
`nucleusState.swapFees` is modelled as a partial map from an ordered token
pair to a `feePPM` value: `none` stands for a lookup that throws in the
source (missing key or unparsable entry), which the source catches and
ignores.  `feePPM` starts at zero; while it is zero the pair-specific entry
and then the `[AddressZero][AddressZero]` default are tried; a resolved
value `≥ MAX_PPM` is replaced by zero. -/
def getSwapFeeForPair (swapFees : String → String → Option Nat)
    (tokenA tokenB : String) : Nat :=
  let feePPM : Nat := 0
  let feePPM : Nat :=
    if feePPM = 0 then
      match swapFees tokenA tokenB with
      | some f => f
      | none => feePPM
    else feePPM
  let feePPM : Nat :=
    if feePPM = 0 then
      match swapFees AddressZero AddressZero with
      | some f => f
      | none => feePPM
    else feePPM
  if MAX_PPM ≤ feePPM then 0 else feePPM

/-- `decimalsToAmount(decimals)`: builds the digit string `1` followed by
`decimals` zeros and parses it, i.e. `10 ^ decimals`. -/
def decimalsToAmount (decimals : Nat) : Nat := 10 ^ decimals

/-- `calculateRelativeAmounts(amountA, decimalsA, amountB, decimalsB)`:
`amountAperB = amountA * decimalsToAmount(decimalsB) / amountB` and
`amountBperA = amountB * decimalsToAmount(decimalsA) / amountA`, both
`BigNumber.div` (throwing on a zero divisor, modelled as `none`). -/
def calculateRelativeAmounts (amountA decimalsA amountB decimalsB : Nat) :
    Option (Nat × Nat) :=
  match bnDiv (amountA * decimalsToAmount decimalsB) amountB with
  | none => none
  | some amountAperB =>
    match bnDiv (amountB * decimalsToAmount decimalsA) amountA with
    | none => none
    | some amountBperA => some (amountAperB, amountBperA)

/-- Outcome of `locationToString`: the three valid description strings and
the `invalid location` string, with the data each one interpolates. -/
inductive LocationDesc where
  | externalBalance : List Nat → LocationDesc
  | internalBalance : List Nat → LocationDesc
  | pool : Nat → LocationDesc
  | invalid : List Nat → LocationDesc
deriving DecidableEq

/-- Big-endian value of a byte sequence (`BN.from` on the hex substring). -/
def fromBytesBE (bs : List Nat) : Nat := bs.foldl (fun acc b => acc * 256 + b) 0

/-- `locationToString(loc)` over the byte sequence of the location:
length must be exactly 32 bytes (66 hex characters); tag byte `0x01`/`0x02`
requires the next 11 bytes (22 hex characters) to be zero and describes the
last 20 bytes as a checksummed address; tag byte `0x03` describes the
remaining 31 bytes as a decimal pool id; anything else is invalid. -/
def locationToString (loc : List Nat) : LocationDesc :=
  if loc.length ≠ 32 then .invalid loc
  else if loc.head? = some 1 then
    if (loc.drop 1).take 11 ≠ List.replicate 11 (0 : Nat) then .invalid loc
    else .externalBalance (loc.drop 12)
  else if loc.head? = some 2 then
    if (loc.drop 1).take 11 ≠ List.replicate 11 (0 : Nat) then .invalid loc
    else .internalBalance (loc.drop 12)
  else if loc.head? = some 3 then .pool (fromBytesBE (loc.drop 1))
  else .invalid loc

/-- Fuel-driven core of `toBytesBE`; the fuel bounds the recursion depth
and is always sufficient when instantiated with `n + 1`. -/
def toBytesBEAux : Nat → Nat → List Nat
  | 0, _ => []
  | fuel + 1, n => if n < 256 then [n] else toBytesBEAux fuel (n / 256) ++ [n % 256]

/-- Minimal big-endian byte representation of a value, one byte for zero:
the byte reading of `BigNumber.toHexString`, which always emits a whole
number of bytes (`0x00` for zero). -/
def toBytesBE (n : Nat) : List Nat := toBytesBEAux (n + 1) n

/-- `poolIDtoLocation(poolID)`: hex digits of the pool id, left-padded with
`0` up to 62 hex characters (31 bytes) — but never truncated — behind a
`0x03` tag byte. -/
def poolIDtoLocation (poolID : Nat) : List Nat :=
  let num := toBytesBE poolID
  3 :: (List.replicate (31 - num.length) 0 ++ num)

/-! ## Helper lemmas -/

/-- Division by a non-zero BigNumber succeeds with the floor quotient. -/
theorem bnDiv_pos (a b : Nat) (hb : b ≠ 0) : bnDiv a b = some (a / b) := by
  unfold bnDiv
  rw [if_neg hb]

/-- The source's increment-on-remainder pattern computes the ceiling
division `(n + d - 1) / d`. -/
theorem ceil_if_eq (n d : Nat) (hd : d ≠ 0) :
    (if 0 < n % d then n / d + 1 else n / d) = (n + d - 1) / d := by
  have hd' : 0 < d := Nat.pos_of_ne_zero hd
  have h : n + d - 1 = n + (d - 1) := by omega
  rw [h, Nat.add_div hd']
  have h0 : (d - 1) / d = 0 := Nat.div_eq_of_lt (by omega)
  have h1 : (d - 1) % d = d - 1 := Nat.mod_eq_of_lt (by omega)
  rw [h0, h1]
  have hmod : n % d < d := Nat.mod_lt _ hd'
  by_cases hc : 0 < n % d
  · have hle : d ≤ n % d + (d - 1) := by omega
    simp [hc, hle]
  · have hle : ¬ d ≤ n % d + (d - 1) := by omega
    simp [hc, hle]

/-- Closed form of `calculateAmountA` on an active rate. -/
theorem calculateAmountA_eq (amountB er : Nat)
    (h1 : (decodeExchangeRate er).1 ≠ 0) (h2 : (decodeExchangeRate er).2 ≠ 0) :
    calculateAmountA amountB er =
      some (amountB * (decodeExchangeRate er).1 / (decodeExchangeRate er).2) := by
  unfold calculateAmountA
  rw [if_neg (by push_neg; exact ⟨h1, h2⟩)]
  exact bnDiv_pos _ _ h2

/-- Closed form of `calculateAmountB` on an active rate: the ceiling
division `ceil(amountA * x2 / x1)`. -/
theorem calculateAmountB_eq (amountA er : Nat)
    (h1 : (decodeExchangeRate er).1 ≠ 0) (h2 : (decodeExchangeRate er).2 ≠ 0) :
    calculateAmountB amountA er =
      some ((amountA * (decodeExchangeRate er).2 + (decodeExchangeRate er).1 - 1) /
        (decodeExchangeRate er).1) := by
  unfold calculateAmountB
  rw [if_neg (by push_neg; exact ⟨h1, h2⟩)]
  dsimp only
  rw [bnDiv_pos _ _ h1, Option.map_some']
  rw [ceil_if_eq _ _ h1]

/-! ## Claim theorems -/

/-- C4: for every `amountA` and every exchange rate decoding to `(x1, x2)`
with `x1 > 0` and `x2 > 0`, `calculateAmountB(amountA, rate)` succeeds with
`ceil(amountA * x2 / x1)`, the floor division incremented by 1 exactly when
the division has a non-zero remainder (here written as the ceiling division
`(amountA * x2 + x1 - 1) / x1`). -/
theorem C4_calculateAmountB_ceil (amountA er x1 x2 : Nat)
    (hd : decodeExchangeRate er = (x1, x2)) (h1 : 0 < x1) (h2 : 0 < x2) :
    calculateAmountB amountA er = some ((amountA * x2 + x1 - 1) / x1) := by
  have := calculateAmountB_eq amountA er (by rw [hd]; omega) (by rw [hd]; omega)
  rwa [hd] at this

/-- C4 witness: with rate `(x1=3, x2=1)`, `amountA = 9` yields exactly 3
(no rounding up). -/
theorem C4_calculateAmountB_ceil_witness :
    decodeExchangeRate (3 * 2 ^ 128 + 1) = (3, 1) ∧
    calculateAmountB 9 (3 * 2 ^ 128 + 1) = some 3 := by
  refine ⟨by decide, ?_⟩
  have h := C4_calculateAmountB_ceil 9 (3 * 2 ^ 128 + 1) 3 1 (by decide)
    (by decide) (by decide)
  simpa using h

/-- C5: for every `amountB` and every exchange rate decoding to `(x1, x2)`
with `x1 > 0` and `x2 > 0`, `calculateAmountA(amountB, rate)` succeeds with
`floor(amountB * x1 / x2)`. -/
theorem C5_calculateAmountA_floor (amountB er x1 x2 : Nat)
    (hd : decodeExchangeRate er = (x1, x2)) (h1 : 0 < x1) (h2 : 0 < x2) :
    calculateAmountA amountB er = some (amountB * x1 / x2) := by
  have := calculateAmountA_eq amountB er (by rw [hd]; omega) (by rw [hd]; omega)
  rwa [hd] at this

/-- C5 witness: with rate `(x1=3, x2=1)`, `amountB = 10` yields 30, while
`calculateAmountB(10, rate)` yields `4 = ceil(10 * 1 / 3)`. -/
theorem C5_calculateAmountA_floor_witness :
    decodeExchangeRate (3 * 2 ^ 128 + 1) = (3, 1) ∧
    calculateAmountA 10 (3 * 2 ^ 128 + 1) = some 30 ∧
    calculateAmountB 10 (3 * 2 ^ 128 + 1) = some 4 := by
  refine ⟨by decide, ?_, by decide⟩
  have h := C5_calculateAmountA_floor 10 (3 * 2 ^ 128 + 1) 3 1 (by decide)
    (by decide) (by decide)
  simpa using h

/-- C6: for every amount argument, `calculateAmountA` and `calculateAmountB`
fail (throw) exactly when the supplied rate decodes to a pair with a zero
component; on an active rate both succeed, so the inactive case is never
silently treated as a zero-amount swap. -/
theorem C6_inactive_rate_error (amountB amountA er : Nat) :
    (calculateAmountA amountB er = none ↔
      (decodeExchangeRate er).1 = 0 ∨ (decodeExchangeRate er).2 = 0) ∧
    (calculateAmountB amountA er = none ↔
      (decodeExchangeRate er).1 = 0 ∨ (decodeExchangeRate er).2 = 0) := by
  constructor
  · by_cases h : (decodeExchangeRate er).1 = 0 ∨ (decodeExchangeRate er).2 = 0
    · simp [calculateAmountA, h]
    · push_neg at h
      rw [calculateAmountA_eq amountB er h.1 h.2]
      simp [h.1, h.2]
  · by_cases h : (decodeExchangeRate er).1 = 0 ∨ (decodeExchangeRate er).2 = 0
    · simp [calculateAmountB, h]
    · push_neg at h
      rw [calculateAmountB_eq amountA er h.1 h.2]
      simp [h.1, h.2]

/-- C8: for all `x1, x2 ≤ 2^128 - 1`, encoding succeeds and decoding the
encoded rate recovers exactly `(x1, x2)`. -/
theorem C8_encode_decode_roundtrip (x1 x2 : Nat)
    (h1 : x1 ≤ 2 ^ 128 - 1) (h2 : x2 ≤ 2 ^ 128 - 1) :
    Option.map decodeExchangeRate (encodeExchangeRate x1 x2) = some (x1, x2) := by
  have hpow : 0 < 2 ^ 128 := Nat.pos_pow_of_pos _ (by norm_num)
  have hx2 : x2 < 2 ^ 128 := lt_of_le_of_lt h2 (by norm_num)
  have hdiv : (x1 * 2 ^ 128 + x2) / 2 ^ 128 = x1 := by
    rw [Nat.mul_comm x1, Nat.mul_add_div hpow, Nat.div_eq_of_lt hx2, Nat.add_zero]
  have hmod : (x1 * 2 ^ 128 + x2) % 2 ^ 128 = x2 := by
    rw [Nat.mul_comm x1, Nat.mul_add_mod]
    exact Nat.mod_eq_of_lt hx2
  unfold encodeExchangeRate MaxUint128
  rw [if_neg (by push_neg; exact ⟨h1, h2⟩), Option.map_some']
  unfold decodeExchangeRate
  rw [hdiv, hmod]

/-- C8 witness: the round trip at the extreme pair
`(2^128 - 1, 2^128 - 1)` and at `(3, 5)`. -/
theorem C8_encode_decode_roundtrip_witness :
    Option.map decodeExchangeRate (encodeExchangeRate (2 ^ 128 - 1) (2 ^ 128 - 1)) =
      some (2 ^ 128 - 1, 2 ^ 128 - 1) ∧
    Option.map decodeExchangeRate (encodeExchangeRate 3 5) = some (3, 5) := by
  exact ⟨C8_encode_decode_roundtrip _ _ (by decide) (by decide),
    C8_encode_decode_roundtrip 3 5 (by decide) (by decide)⟩

/-- C1 counterexample: with rate `(x1=1, x2=1)` and `feePPM = 10_000`,
input `amountAMT = 100` yields `amountBMM = 100` but `amountBMT = 101` —
the floor of `100 * 1_000_000 / 990_000` — while the claim's ceiling
formula gives 102. -/
theorem C1_counterexample_floor_not_ceil :
    calculateMarketOrderExactAMT 100 (1 * 2 ^ 128 + 1) 10000 =
      some (100, 100, 101, 1) ∧
    (100 * 1000000 + (1000000 - 10000) - 1) / (1000000 - 10000) = 102 ∧
    (101 : Nat) ≠ 102 := by
  refine ⟨by decide, by norm_num, by decide⟩

/-- C1 (amended): for every exchange rate decoding to `(x1, x2)` with
`x1 > 0` and `x2 > 0`, and every `feePPM < 1_000_000`,
`calculateMarketOrderExactAMT(amountAMT, rate, feePPM)` returns
`amountAMM = amountAMT`, `amountBMM = ceil(amountAMT * x2 / x1)`,
`amountBMT = floor(amountBMM * 1_000_000 / (1_000_000 - feePPM))` (floor,
not ceiling, of the grossed-up amount), and
`amountBFR = floor(amountBMT * feePPM / 1_000_000)`. -/
theorem C1_marketOrderExactAMT_amended (amountAMT er feePPM x1 x2 : Nat)
    (hd : decodeExchangeRate er = (x1, x2)) (h1 : 0 < x1) (h2 : 0 < x2)
    (hf : feePPM < 1000000) :
    calculateMarketOrderExactAMT amountAMT er feePPM =
      some (amountAMT,
        (amountAMT * x2 + x1 - 1) / x1,
        (amountAMT * x2 + x1 - 1) / x1 * 1000000 / (1000000 - feePPM),
        (amountAMT * x2 + x1 - 1) / x1 * 1000000 / (1000000 - feePPM) * feePPM /
          1000000) := by
  have hB : calculateAmountB amountAMT er = some ((amountAMT * x2 + x1 - 1) / x1) := by
    have h := calculateAmountB_eq amountAMT er (by rw [hd]; omega) (by rw [hd]; omega)
    rwa [hd] at h
  unfold calculateMarketOrderExactAMT MAX_PPM
  dsimp only
  rw [hB]
  dsimp only
  rw [bnDiv_pos _ _ (show (1000000 - feePPM) ≠ 0 by omega)]
  dsimp only
  rw [bnDiv_pos _ _ (show (1000000 : Nat) ≠ 0 by norm_num)]

/-- C1 witness for the amended claim: the fee-flow example evaluates to
`(100, 100, 101, 1)`. -/
theorem C1_marketOrderExactAMT_amended_witness :
    decodeExchangeRate (1 * 2 ^ 128 + 1) = (1, 1) ∧
    calculateMarketOrderExactAMT 100 (1 * 2 ^ 128 + 1) 10000 =
      some (100, 100, 101, 1) := by
  refine ⟨by decide, ?_⟩
  have h := C1_marketOrderExactAMT_amended 100 (1 * 2 ^ 128 + 1) 10000 1 1
    (by decide) (by decide) (by decide) (by decide)
  simpa using h

/-- C9: `calculateRelativeAmounts` returns the two floor-division ratios
`floor(amountA * 10^decimalsB / amountB)` and
`floor(amountB * 10^decimalsA / amountA)` whenever both amounts are
non-zero, and fails (division-by-zero throw, modelled as `none`) whenever
`amountA = 0` or `amountB = 0` — never silently returning 0. -/
theorem C9_relativeAmounts_floor (amountA decimalsA amountB decimalsB : Nat) :
    (amountA ≠ 0 → amountB ≠ 0 →
      calculateRelativeAmounts amountA decimalsA amountB decimalsB =
        some (amountA * 10 ^ decimalsB / amountB,
              amountB * 10 ^ decimalsA / amountA)) ∧
    (amountA = 0 ∨ amountB = 0 →
      calculateRelativeAmounts amountA decimalsA amountB decimalsB = none) := by
  constructor
  · intro hA hB
    unfold calculateRelativeAmounts decimalsToAmount
    rw [bnDiv_pos _ _ hB]
    dsimp only
    rw [bnDiv_pos _ _ hA]
  · intro h
    unfold calculateRelativeAmounts bnDiv
    rcases h with h | h
    · rcases eq_or_ne amountB 0 with hB | hB
      · simp [hB]
      · simp [hB, h]
    · simp [h]

/-- C9 witness: the spec's example `(amountA=100, decimalsA=18, amountB=200,
decimalsB=6)` is well defined, and a zero amount fails. -/
theorem C9_relativeAmounts_floor_witness :
    calculateRelativeAmounts 100 18 200 6 =
      some (500000, 2000000000000000000) ∧
    calculateRelativeAmounts 0 18 200 6 = none := by
  constructor
  · have h := (C9_relativeAmounts_floor 100 18 200 6).1 (by decide) (by decide)
    simpa using h
  · exact (C9_relativeAmounts_floor 0 18 200 6).2 (Or.inl rfl)

/-- C10: for every `amountBMT`, every `feePPM ≤ 1_000_000`, and every
exchange rate decoding to `(x1, x2)` with `x1 > 0` and `x2 > 0`,
`calculateMarketOrderExactBMT` succeeds with a fee `amountBFR ≤ amountBMT`
(so `amountBMM = amountBMT - amountBFR` is non-negative) and with the
returned `amountAMT` equal to `amountAMM` (the first two components of the
result tuple coincide). -/
theorem C10_marketOrderExactBMT_fee_bound (amountBMT er feePPM x1 x2 : Nat)
    (hd : decodeExchangeRate er = (x1, x2)) (h1 : 0 < x1) (h2 : 0 < x2)
    (hf : feePPM ≤ 1000000) :
    ∃ amountAMM amountBFR,
      calculateMarketOrderExactBMT amountBMT er feePPM =
        some (amountAMM, amountAMM, amountBMT - amountBFR, amountBFR) ∧
      amountBFR ≤ amountBMT := by
  refine ⟨(amountBMT - amountBMT * feePPM / 1000000) * x1 / x2,
    amountBMT * feePPM / 1000000, ?_, ?_⟩
  · have hA : calculateAmountA (amountBMT - amountBMT * feePPM / 1000000) er =
        some ((amountBMT - amountBMT * feePPM / 1000000) * x1 / x2) := by
      have h := calculateAmountA_eq (amountBMT - amountBMT * feePPM / 1000000) er
        (by rw [hd]; omega) (by rw [hd]; omega)
      rwa [hd] at h
    unfold calculateMarketOrderExactBMT MAX_PPM
    rw [bnDiv_pos _ _ (show (1000000 : Nat) ≠ 0 by norm_num)]
    dsimp only
    rw [hA]
  · have hle : amountBMT * feePPM / 1000000 ≤ amountBMT * 1000000 / 1000000 :=
      Nat.div_le_div_right (Nat.mul_le_mul_left _ hf)
    have heq : amountBMT * 1000000 / 1000000 = amountBMT := by omega
    omega

/-- C10 witness: `amountBMT = 100`, rate `(1, 1)`, `feePPM = 10_000`. -/
theorem C10_marketOrderExactBMT_fee_bound_witness :
    decodeExchangeRate (1 * 2 ^ 128 + 1) = (1, 1) ∧
    (∃ amountAMM amountBFR,
      calculateMarketOrderExactBMT 100 (1 * 2 ^ 128 + 1) 10000 =
        some (amountAMM, amountAMM, 100 - amountBFR, amountBFR) ∧
      amountBFR ≤ 100) :=
  ⟨by decide, C10_marketOrderExactBMT_fee_bound 100 (1 * 2 ^ 128 + 1) 10000 1 1
    (by decide) (by decide) (by decide) (by decide)⟩

/-- C2 counterexample: with a pair-specific entry that is present with
value 0 and a global default of 100, fee resolution returns the global
default 100 rather than the present pair-specific value 0, contradicting
"returns the pair-specific entry whenever that entry is present, whatever
its value". -/
theorem C2_counterexample_zero_pair_entry :
    (fun a b : String =>
      if a = "A" ∧ b = "B" then some (0 : Nat)
      else if a = AddressZero ∧ b = AddressZero then some 100
      else none) "A" "B" = some 0 ∧
    getSwapFeeForPair
      (fun a b : String =>
        if a = "A" ∧ b = "B" then some (0 : Nat)
        else if a = AddressZero ∧ b = AddressZero then some 100
        else none) "A" "B" = 100 ∧
    (100 : Nat) ≠ 0 := by
  refine ⟨by decide, by decide, by decide⟩

/-- C2 (amended): fee resolution returns the pair-specific entry when it is
present, non-zero and below 1_000_000; a present entry `≥ 1_000_000`
resolves to 0; when the pair-specific entry is absent (lookup throws) or
zero, the global default entry is consulted under the same rules; when
neither lookup yields a non-zero value the result is 0. -/
theorem C2_getSwapFeeForPair_amended (swapFees : String → String → Option Nat)
    (tokenA tokenB : String) :
    (∀ f : Nat, swapFees tokenA tokenB = some f → f ≠ 0 → f < 1000000 →
      getSwapFeeForPair swapFees tokenA tokenB = f) ∧
    (∀ f : Nat, swapFees tokenA tokenB = some f → 1000000 ≤ f →
      getSwapFeeForPair swapFees tokenA tokenB = 0) ∧
    ((swapFees tokenA tokenB = none ∨ swapFees tokenA tokenB = some 0) →
      (∀ g : Nat, swapFees AddressZero AddressZero = some g → g ≠ 0 →
          g < 1000000 → getSwapFeeForPair swapFees tokenA tokenB = g) ∧
      (∀ g : Nat, swapFees AddressZero AddressZero = some g → 1000000 ≤ g →
          getSwapFeeForPair swapFees tokenA tokenB = 0) ∧
      ((swapFees AddressZero AddressZero = none ∨
          swapFees AddressZero AddressZero = some 0) →
        getSwapFeeForPair swapFees tokenA tokenB = 0)) := by
  refine ⟨?_, ?_, ?_⟩
  · intro f hf hne hlt
    have hnle : ¬ (1000000 ≤ f) := by omega
    simp [getSwapFeeForPair, MAX_PPM, hf, hne, hnle]
  · intro f hf hge
    have hne : f ≠ 0 := by omega
    simp [getSwapFeeForPair, MAX_PPM, hf, hne, hge]
  · intro hp
    refine ⟨?_, ?_, ?_⟩
    · intro g hg hne hlt
      have hnle : ¬ (1000000 ≤ g) := by omega
      rcases hp with hp | hp <;> simp [getSwapFeeForPair, MAX_PPM, hp, hg, hne, hnle]
    · intro g hg hge
      have hne : g ≠ 0 := by omega
      rcases hp with hp | hp <;> simp [getSwapFeeForPair, MAX_PPM, hp, hg, hne, hge]
    · intro hg
      rcases hp with hp | hp <;> rcases hg with hg | hg <;>
        simp [getSwapFeeForPair, MAX_PPM, hp, hg]

/-- C2 witness for the amended claim: a non-zero pair-specific entry of 500
is returned as is. -/
theorem C2_getSwapFeeForPair_amended_witness :
    getSwapFeeForPair
      (fun a b : String => if a = "T1" ∧ b = "T2" then some (500 : Nat) else none)
      "T1" "T2" = 500 :=
  (C2_getSwapFeeForPair_amended _ "T1" "T2").1 500 (by decide) (by decide)
    (by decide)

/-- C3: `encodeExchangeRate` does signal the range error (both components),
but `poolIDtoLocation` does not: at the failing input `poolID = 2^248` it
silently returns a 33-byte over-length location — one the repository's own
`locationToString` rejects as invalid — instead of aborting, while every
pool id up to `2^248 - 1` still fits in 32 bytes. -/
theorem C3_range_error_evaluation :
    encodeExchangeRate (2 ^ 128) 0 = none ∧
    encodeExchangeRate 0 (2 ^ 128) = none ∧
    (poolIDtoLocation (2 ^ 248 - 1)).length = 32 ∧
    (poolIDtoLocation (2 ^ 248)).length = 33 ∧
    locationToString (poolIDtoLocation (2 ^ 248)) =
      LocationDesc.invalid (poolIDtoLocation (2 ^ 248)) := by
  refine ⟨by decide, by decide, by decide, by decide, by decide⟩

/-- C7: `locationToString` is total (the Lean model returns in every case)
and returns the invalid indication exactly when the input is not 32 bytes,
the tag byte is outside {1, 2, 3}, or under tags 1/2 one of the 11 reserved
bytes is non-zero; in the remaining cases it returns precisely the
external-balance, internal-balance or pool description of the payload. -/
theorem C7_locationToString_classification (loc : List Nat) :
    (locationToString loc = LocationDesc.invalid loc ↔
      (loc.length ≠ 32 ∨
        (loc.head? ≠ some 1 ∧ loc.head? ≠ some 2 ∧ loc.head? ≠ some 3) ∨
        ((loc.head? = some 1 ∨ loc.head? = some 2) ∧
          (loc.drop 1).take 11 ≠ List.replicate 11 (0 : Nat)))) ∧
    (locationToString loc = LocationDesc.externalBalance (loc.drop 12) ↔
      (loc.length = 32 ∧ loc.head? = some 1 ∧
        (loc.drop 1).take 11 = List.replicate 11 (0 : Nat))) ∧
    (locationToString loc = LocationDesc.internalBalance (loc.drop 12) ↔
      (loc.length = 32 ∧ loc.head? = some 2 ∧
        (loc.drop 1).take 11 = List.replicate 11 (0 : Nat))) ∧
    (locationToString loc = LocationDesc.pool (fromBytesBE (loc.drop 1)) ↔
      (loc.length = 32 ∧ loc.head? = some 3)) := by
  unfold locationToString
  split_ifs with hlen h1 hres1 h2 hres2 h3 <;> simp_all
